import Mathlib

/-!
Shallow embedding of the `mxmauro/logger` repository (Go) and verification of
the frozen claims about it.

The embedding covers:
* the syslog engine (`src/engines/file/file_freebsd.go`, package `syslog`):
  the bounded message queue, line-ending normalization, RFC 3164 / RFC 5424
  formatting, the priority computation, the shutdown flush with its 5-second
  deadline, and the idempotent destroy;
* the file engine (`src/engines/file/file.go`): construction-time clamps,
  the rotation decision, the vault purge algorithm, and destroy;
* the top-level logger dispatch (`src/unnamed/part_002`): `parseObj` and
  `log`.

Go strings are modelled as Lean `String`s (character-level view through
`String.data`), machine integers as `Nat`/`Int` with explicit bounds where
overflow could matter, wall-clock time as `Nat` seconds, and network I/O as
explicit oracles passed to the functions that perform it.
-/

namespace Syslog

/-- Constants from the syslog engine source (`const` block). -/
def severityError : Nat := 3

def severityWarning : Nat := 4

def severityInformational : Nat := 6

def severityDebug : Nat := 7

def facilityUser : Nat := 1

def defaultMaxMessageQueueSize : Nat := 1024

/-- `flushTimeout = 5 * time.Second`, in seconds. -/
def flushTimeout : Nat := 5

/-!
### Bounded message queue

`queueMessage` embeds the body of `(lg *engine) queueMessage` acting on the
`container/list` queue, modelled as a `List String` whose head is the front
(oldest element).  The source:

    if uint(lg.queue.Len()) > lg.maxQueueSize {
        elem := lg.queue.Front()
        if elem != nil { lg.queue.Remove(elem) }
    }
    lg.queue.PushBack(msg)
-/

/-- One enqueue on the syslog queue: evict the front element when the current
length strictly exceeds `maxQueueSize`, then push the message at the back. -/
def queueMessage (maxQueueSize : Nat) (queue : List String) (msg : String) : List String :=
  let queue' := if queue.length > maxQueueSize then queue.tail else queue
  queue' ++ [msg]

/-- A whole sequence of enqueues, left to right. -/
def enqueueAll (maxQueueSize : Nat) (queue : List String) (msgs : List String) : List String :=
  msgs.foldl (queueMessage maxQueueSize) queue

/-- `(lg *engine) dequeueMessage`: pop the front element if any. -/
def dequeueMessage (queue : List String) : Option (String × List String) :=
  match queue with
  | [] => none
  | m :: rest => some (m, rest)

end Syslog

namespace Syslog

/-!
### Line-ending normalization and wire formatting (`writeString`)

Strings are viewed character-wise through `String.data`.  Since the suffix
tested by the source is the single character `"\n"`,
`strings.HasSuffix(msg, "\n")` is a test of the last character and
`strings.TrimSuffix(msg, "\n")` drops the last character when that test
succeeds (`msg[:len(msg)-1]`), and is the identity otherwise.
-/

/-- `strings.HasSuffix(msg, "\n")`. -/
def hasTrailingNewline (msg : String) : Bool :=
  msg.data.getLast? == some '\n'

/-- `msg[:len(msg)-1]`, the result of `strings.TrimSuffix(msg, "\n")` when the
suffix is present. -/
def dropLastChar (msg : String) : String :=
  String.mk msg.data.dropLast

/-- The transport-dependent newline normalization at the top of `writeString`:

    if lg.useTcp {
        if !strings.HasSuffix(msg, "\n") { msg = msg + "\n" }
    } else {
        msg = strings.TrimSuffix(msg, "\n")
    }
-/
def normalizeNewline (useTcp : Bool) (msg : String) : String :=
  if useTcp then
    if hasTrailingNewline msg then msg else msg ++ "\n"
  else
    if hasTrailingNewline msg then dropLastChar msg else msg

/-- Wall-clock timestamps handed to the engine methods (`time.Time`), split
into the calendar/clock fields the formatters read. -/
structure DateTime where
  year : Nat
  month : Nat
  day : Nat
  hour : Nat
  minute : Nat
  second : Nat

/-- Go zero-padded 2-digit field (layout tokens `01`, `02`, `15`, `04`, `05`). -/
def pad2 (n : Nat) : String :=
  if n < 10 then "0" ++ toString n else toString n

/-- Go space-padded day-of-month (layout token `_2`). -/
def padSpace2 (n : Nat) : String :=
  if n < 10 then " " ++ toString n else toString n

/-- Go 4-digit year (layout token `2006`). -/
def pad4 (n : Nat) : String :=
  if n < 10 then "000" ++ toString n
  else if n < 100 then "00" ++ toString n
  else if n < 1000 then "0" ++ toString n
  else toString n

/-- Go layout token `Jan`: abbreviated month name.  A `time.Time` month is
always in `1..12`; the catch-all branch is unreachable on real inputs. -/
def monthName : Nat → String
  | 1 => "Jan" | 2 => "Feb" | 3 => "Mar" | 4 => "Apr"
  | 5 => "May" | 6 => "Jun" | 7 => "Jul" | 8 => "Aug"
  | 9 => "Sep" | 10 => "Oct" | 11 => "Nov" | 12 => "Dec"
  | _ => ""

/-- `now.Format("Jan _2 15:04:05")`: the legacy (RFC 3164) timestamp. -/
def formatLegacyTime (t : DateTime) : String :=
  monthName t.month ++ " " ++ padSpace2 t.day ++ " " ++
    pad2 t.hour ++ ":" ++ pad2 t.minute ++ ":" ++ pad2 t.second

/-- `now.Format("2006-02-01T15:04:05Z")`: the structured (RFC 5424) timestamp.
In Go's reference-time layout `2006` is the year, `02` the day of month and
`01` the month, so this layout emits year, then DAY, then MONTH — the literal
field order `YYYY-DD-MMTHH:MM:SSZ`. -/
def formatRFC5424Time (t : DateTime) : String :=
  pad4 t.year ++ "-" ++ pad2 t.day ++ "-" ++ pad2 t.month ++ "T" ++
    pad2 t.hour ++ ":" ++ pad2 t.minute ++ ":" ++ pad2 t.second ++ "Z"

/-- The per-instance configuration fields of the syslog `engine` struct that
`writeString` reads. -/
structure Config where
  appName : String
  useTcp : Bool
  useRFC5424 : Bool
  hostname : String
  pid : Nat

/-- `(lg *engine) writeString`: computes the priority, normalizes the trailing
newline per transport, renders either the legacy or the structured wire text
and hands it to `queueMessage`.  The model returns the payload string placed
on the queue.  The `raw` parameter of the engine methods is ignored by the
source (`_ bool`). -/
def writeString (cfg : Config) (facility severity : Nat) (now : DateTime)
    (msg : String) : String :=
  let priority := facility * 8 + severity
  let msg' := normalizeNewline cfg.useTcp msg
  if !cfg.useRFC5424 then
    "<" ++ toString priority ++ ">" ++ formatLegacyTime now ++ " " ++
      cfg.hostname ++ " " ++ msg'
  else
    "<" ++ toString priority ++ ">1 " ++ formatRFC5424Time now ++ " " ++
      cfg.hostname ++ " " ++ cfg.appName ++ " " ++ toString cfg.pid ++
      " - - " ++ msg'

/-- `(lg *engine) Success`: severity depends on `sendSuccessAtErrorLogLevel`. -/
def Success (cfg : Config) (now : DateTime) (msg : String) (_raw : Bool)
    (sendSuccessAtErrorLogLevel : Bool) : String :=
  if sendSuccessAtErrorLogLevel then
    writeString cfg facilityUser severityError now msg
  else
    writeString cfg facilityUser severityInformational now msg

/-- `(lg *engine) Error`. -/
def Error (cfg : Config) (now : DateTime) (msg : String) (_raw : Bool) : String :=
  writeString cfg facilityUser severityError now msg

/-- `(lg *engine) Warning`. -/
def Warning (cfg : Config) (now : DateTime) (msg : String) (_raw : Bool) : String :=
  writeString cfg facilityUser severityWarning now msg

/-- `(lg *engine) Info`. -/
def Info (cfg : Config) (now : DateTime) (msg : String) (_raw : Bool) : String :=
  writeString cfg facilityUser severityInformational now msg

/-- `(lg *engine) Debug`. -/
def Debug (cfg : Config) (now : DateTime) (msg : String) (_raw : Bool) : String :=
  writeString cfg facilityUser severityDebug now msg

/-- Number of trailing newline characters of a character list. -/
def trailingCountL (l : List Char) : Nat :=
  (l.reverse.takeWhile (fun c => c == '\n')).length

/-- Number of trailing newline characters of a string. -/
def trailingNewlineCount (s : String) : Nat :=
  trailingCountL s.data

/-- Digits of the priority field of an emitted payload, decoded: the maximal
run of decimal digits following the leading character (`<`). -/
def digitsToNat (l : List Char) : Nat :=
  l.foldl (fun n c => n * 10 + (c.toNat - 48)) 0

/-- The priority number carried by a formatted payload `<p>...`. -/
def emittedPriority (payload : String) : Nat :=
  digitsToNat ((payload.data.drop 1).takeWhile Char.isDigit)

end Syslog

namespace Syslog

/-!
### Connection management, shutdown flush and destroy

Network I/O is modelled by per-attempt oracles.  Wall-clock time is `Nat`
seconds; the i-th send attempt of a drain runs at `(envs i).time`.
-/

/-- Environment of one send attempt: the wall-clock second at which it runs
and the outcomes of the underlying socket operations — the `conn.Write` on an
existing connection, the `DialContext`, and the retry `conn.Write` after a
reconnect. -/
structure StepEnv where
  time : Nat
  firstWriteOk : Bool
  dialOk : Bool
  retryWriteOk : Bool

/-- `(lg *engine) connect(ctx)` under a context with absolute deadline `d`:
`DialContext` honours the context, so the dial fails outright once the
deadline has passed; otherwise the network oracle decides.  `connect` calls
`disconnect` first, so on failure no connection is left set. -/
def connectModel (d : Nat) (e : StepEnv) : Bool :=
  decide (e.time < d) && e.dialOk

/-- `(lg *engine) writeBytes(ctx, b)`: write on the current connection if one
exists; on failure or if disconnected, (re)connect under the context and
retry the write once, disconnecting again if the retry fails.  Returns
(connection present afterwards, send succeeded). -/
def writeBytesModel (d : Nat) (conn : Bool) (e : StepEnv) : Bool × Bool :=
  if conn && e.firstWriteOk then
    (true, true)
  else if connectModel d e then
    if e.retryWriteOk then (true, true) else (false, false)
  else
    (false, false)

/-- The loop of `(lg *engine) flushQueue`: dequeue the front message, send it
through `writeBytes`, stop at the first send error (the failing message has
already been removed) or when the queue is empty.  Returns the connection
state and the messages still queued. -/
def flushLoop (d : Nat) (envs : Nat → StepEnv) :
    Nat → Bool → List String → Bool × List String
  | _, conn, [] => (conn, [])
  | i, conn, _m :: rest =>
    let r := writeBytesModel d conn (envs i)
    if r.2 then flushLoop d envs (i + 1) r.1 rest else (r.1, rest)

/-- `(lg *engine) flushQueue`: drain under a context whose deadline is
`flushTimeout` (5 seconds) past the moment draining starts. -/
def flushQueueModel (start : Nat) (envs : Nat → StepEnv) (conn : Bool)
    (queue : List String) : Bool × List String :=
  flushLoop (start + flushTimeout) envs 0 conn queue

/-- The shutdown-relevant state of the syslog engine. -/
structure EngineState where
  conn : Bool
  queue : List String
  destroyed : Bool

/-- `(lg *engine) Destroy`: `shutdownOnce.Do` runs the body at most once —
cancel the worker, wait for it to exit, flush the queue, disconnect.  Returns
the new state together with the number of `conn.Close` calls performed by the
final `disconnect` (one when a connection was still set, zero otherwise). -/
def Destroy (start : Nat) (envs : Nat → StepEnv) (s : EngineState) :
    EngineState × Nat :=
  if s.destroyed then (s, 0)
  else
    let r := flushQueueModel start envs s.conn s.queue
    ({ conn := false, queue := r.2, destroyed := true },
      if r.1 then 1 else 0)

end Syslog

namespace File

/-!
### File engine (`src/engines/file/file.go`)

Go's `uint`/`uint64` become `Nat`, the engine's `int64` fields become `Int`.
`math.MaxInt64` is written out as a literal.
-/

/-- `minFileSize = 10 * 1024` (10KB). -/
def minFileSize : Nat := 10 * 1024

/-- `minFileVaultSize = 100 * 1024` (100KB). -/
def minFileVaultSize : Nat := 100 * 1024

/-- `math.MaxInt64 = 2^63 - 1`. -/
def maxInt64 : Nat := 9223372036854775807

/-- The numeric fields of the file engine's `Options`. -/
structure Options where
  daysToKeep : Nat
  maxFileSize : Nat
  maxFileVaultSize : Nat

/-- The clamped numeric configuration stored in the `engine` struct. -/
structure Config where
  daysToKeep : Nat
  maxFileSize : Int
  maxFileVaultSize : Int

/-- The numeric clamping performed by `NewEngine`:

    if opts.DaysToKeep < 365 { lg.daysToKeep = opts.DaysToKeep } else { lg.daysToKeep = 365 }
    if opts.MaxFileSize > 0 { ... clamp to [minFileSize, MaxInt64] ... }
    if opts.MaxFileVaultSize > 0 { ... clamp to [minFileVaultSize, MaxInt64],
                                    then raise to at least lg.maxFileSize ... }
-/
def NewEngineConfig (opts : Options) : Config :=
  let daysToKeep := if opts.daysToKeep < 365 then opts.daysToKeep else 365
  let maxFileSize : Int :=
    if opts.maxFileSize > 0 then
      if opts.maxFileSize > maxInt64 then (maxInt64 : Int)
      else if opts.maxFileSize < minFileSize then (minFileSize : Int)
      else (opts.maxFileSize : Int)
    else 0
  let maxFileVaultSize : Int :=
    if opts.maxFileVaultSize > 0 then
      let v : Int :=
        if opts.maxFileVaultSize > maxInt64 then (maxInt64 : Int)
        else if opts.maxFileVaultSize < minFileVaultSize then (minFileVaultSize : Int)
        else (opts.maxFileVaultSize : Int)
      if v < maxFileSize then maxFileSize else v
    else 0
  ⟨daysToKeep, maxFileSize, maxFileVaultSize⟩

/-- The mutable rotation state of the file engine: whether a file is open,
the recorded day of the open file (`dayOfFile`, initialized to `-1`), the
per-day sub-file index and the running size counters. -/
structure State where
  fdOpen : Bool
  dayOfFile : Int
  subFileIndex : Int
  currentFileSize : Int
  currentFileVaultSize : Int

/-- The state of the engine right after `NewEngine`, with
`currentFileVaultSize` the baseline returned by the construction-time purge. -/
def initialState (purgedVaultSize : Int) : State :=
  ⟨false, -1, 0, 0, purgedVaultSize⟩

/-- The rotation condition of `openOrRotateFile`:

    rotate := lg.fd == nil || dayOfNow != lg.dayOfFile ||
        (lg.maxFileSize > 0 && lg.currentFileSize+int64(msgLen) > lg.maxFileSize) ||
        (lg.maxFileVaultSize > 0 && lg.currentFileVaultSize+int64(msgLen) > lg.maxFileVaultSize)

where `dayOfNow := now.Day()` is the day of the month. -/
def rotateNeeded (cfg : Config) (s : State) (now : Syslog.DateTime)
    (msgLen : Nat) : Bool :=
  !s.fdOpen || decide ((now.day : Int) ≠ s.dayOfFile) ||
    (decide (cfg.maxFileSize > 0) &&
      decide (s.currentFileSize + (msgLen : Int) > cfg.maxFileSize)) ||
    (decide (cfg.maxFileVaultSize > 0) &&
      decide (s.currentFileVaultSize + (msgLen : Int) > cfg.maxFileVaultSize))

/-- `openOrRotateFile(now, msgLen)`: when no rotation is needed, return with
the state untouched; otherwise close the open file, reset the size counter,
update the sub-file index (reset to 1 on a day change, increment otherwise —
only when `maxFileSize` is set), re-run the purge (its result is passed in as
`purgedVaultSize`), and open the new file for the day. -/
def openOrRotateFile (cfg : Config) (s : State) (now : Syslog.DateTime)
    (msgLen : Nat) (purgedVaultSize : Int) : State :=
  if rotateNeeded cfg s now msgLen then
    { fdOpen := true
      dayOfFile := (now.day : Int)
      subFileIndex :=
        if cfg.maxFileSize > 0 then
          if (now.day : Int) ≠ s.dayOfFile then 1 else s.subFileIndex + 1
        else s.subFileIndex
      currentFileSize := 0
      currentFileVaultSize := purgedVaultSize }
  else s

/-- `(lg *engine) Destroy` of the file engine: under the instance lock, sync
and close the file handle when one is open and null it.  Returns the new
state and the number of `Close` calls performed. -/
def Destroy (s : State) : State × Nat :=
  if s.fdOpen then ({ s with fdOpen := false }, 1) else (s, 0)

end File

namespace File

/-!
### Vault purge (`purgeFileVault`)

The directory listing is an input (`os.ReadDir` result); each entry carries
the metadata the code reads (`IsDir`, `Name`, `Info().Size()`,
`getFileCreationTime`).  Timestamps are `Int` (nanoseconds since the epoch —
only their order matters).  `lowest` stands for
`time.Now().UTC().AddDate(0, 0, -daysToKeep)`.
-/

/-- One entry of the target directory listing. -/
structure DirEntry where
  name : String
  isDir : Bool
  fileSize : Int
  createdAt : Int

/-- The `LogFile` records kept by the filter loop. -/
structure LogFile where
  name : String
  fileSize : Int
  createdAt : Int

/-- The filter of `purgeFileVault`: keep non-directory entries whose name has
at least 4 characters and ends in `.log` case-insensitively
(`strings.ToLower(filename[filenameLen-4:]) == ".log"`). -/
def isLogFile (e : DirEntry) : Bool :=
  !e.isDir && decide (4 ≤ e.name.data.length) &&
    ((e.name.data.drop (e.name.data.length - 4)).map Char.toLower == ".log".data)

def filteredLogFiles (entries : List DirEntry) : List LogFile :=
  (entries.filter isLogFile).map (fun e => ⟨e.name, e.fileSize, e.createdAt⟩)

/-- The comparison handed to `slices.SortFunc`: ascending creation time. -/
def createdLE (a b : LogFile) : Prop := a.createdAt ≤ b.createdAt

instance : DecidableRel createdLE :=
  fun a b => inferInstanceAs (Decidable (a.createdAt ≤ b.createdAt))

instance : IsTotal LogFile createdLE :=
  ⟨fun a b => Int.le_total a.createdAt b.createdAt⟩

instance : IsTrans LogFile createdLE :=
  ⟨fun _ _ _ => Int.le_trans⟩

/-- The filtered files sorted ascending by creation time
(`slices.SortFunc(filteredFiles, ...Compare(CreatedAt))`). -/
def sortedLogFiles (entries : List DirEntry) : List LogFile :=
  List.insertionSort createdLE (filteredLogFiles entries)

/-- The size-summing loops of `purgeFileVault`. -/
def sumSizes (files : List LogFile) : Int :=
  (files.map (fun f => f.fileSize)).sum

/-- The retention-days loop: the cutoff advances past every leading file
whose creation time is strictly before `lowest`
(`filteredFiles[deleteUntilIndex].CreatedAt.Before(lowestTime)`). -/
def daysCutoff (daysToKeep : Nat) (lowest : Int) (files : List LogFile) : Nat :=
  if 0 < daysToKeep then
    (files.takeWhile (fun f => decide (f.createdAt < lowest))).length
  else 0

/-- The vault-size loop: while the remaining size exceeds `required`
(`maxFileVaultSize - minFileSize`), evict the oldest remaining file.
Returns the remaining size and the number of extra files evicted. -/
def evictOldest (required : Int) : Int → List LogFile → Int × Nat
  | vaultSize, [] => (vaultSize, 0)
  | vaultSize, f :: rest =>
    if required < vaultSize then
      let r := evictOldest required (vaultSize - f.fileSize) rest
      (r.1, r.2 + 1)
    else (vaultSize, 0)

/-- `(lg *engine) purgeFileVault`: no-op when both caps are zero; otherwise
filter and sort the directory, advance the cutoff for retention days, then
for the vault-size budget, delete everything before the cutoff and return
the size of what remains. -/
def purgeFileVault (daysToKeep : Nat) (maxFileVaultSize : Int) (lowest : Int)
    (entries : List DirEntry) : List LogFile × Int :=
  if daysToKeep = 0 ∧ maxFileVaultSize = 0 then ([], 0)
  else
    let files := sortedLogFiles entries
    let cut1 := daysCutoff daysToKeep lowest files
    let r :=
      if 0 < maxFileVaultSize then
        evictOldest (maxFileVaultSize - (minFileSize : Int))
          (sumSizes (files.drop cut1)) (files.drop cut1)
      else (sumSizes (files.drop cut1), 0)
    (files.take (cut1 + r.2), r.1)

end File

namespace Logger

/-!
### Top-level logger dispatch (`parseObj`, `log`)

`parseObj` inspects the dynamic type of the logged value with reflection.
The shapes it distinguishes are modelled as an inductive: a string, a struct
(carrying its `json.Marshal` result, `none` when marshalling fails), a
possibly-nil pointer to string, a possibly-nil pointer to struct, and every
other dynamic type (`otherVal`).
-/

inductive GoValue where
  | strVal : String → GoValue
  | structVal : Option String → GoValue
  | ptrString : Option String → GoValue
  | ptrStruct : Option (Option String) → GoValue
  | otherVal : GoValue

/-- `parseObj(obj) (msg, isJSON, ok)`: strings and non-nil pointers to
strings are passed through as plain text; structs and non-nil pointers to
structs are JSON-marshalled (failure means not ok); everything else — nil
pointers, pointers to other types, any other dynamic type — is not ok,
modelled as `none`. -/
def parseObj : GoValue → Option (String × Bool)
  | .strVal s => some (s, false)
  | .structVal (some j) => some (j, true)
  | .structVal none => none
  | .ptrString (some s) => some (s, false)
  | .ptrString none => none
  | .ptrStruct (some (some j)) => some (j, true)
  | .ptrStruct (some none) => none
  | .ptrStruct none => none
  | .otherVal => none

/-- `addPayloadToJSON(s, now, level)` with the formatted timestamp
(`now.Format("2006-01-02 15:04:05.000")`) passed in as `ts`: when `s` looks
like an encoded object (length at least 2, starting with an opening brace,
written `Char.ofNat 123`), splice `"timestamp":"<ts>","level":"<level>"`
right after the opening brace, followed by a comma unless the object is
empty (next character a closing brace, `Char.ofNat 125`). -/
def addPayloadToJSON (s ts level : String) : String :=
  if s.data.length < 2 ∨ s.data.head? ≠ some (Char.ofNat 123) then s
  else
    String.mk (s.data.take 1) ++ "\"timestamp\":\"" ++ ts ++ "\",\"level\":\"" ++
      level ++ "\"" ++
      (if s.data.get? 1 ≠ some (Char.ofNat 125) then "," else "") ++
      String.mk (s.data.drop 1)

inductive LogType where
  | success
  | error
  | warning
  | info
  | debug

/-- One engine-method invocation performed by `log`. -/
structure LogEvent where
  engine : Nat
  type : LogType
  msg : String
  raw : Bool
  successAtError : Bool

/-- `(lg *Logger) log(obj, jsonLevel, _type)`, modelled as the list of engine
invocations it performs: none when `parseObj` reports not ok; otherwise one
per configured engine, in order, carrying the (JSON-decorated when
applicable) message and the raw flag. -/
def log (engines : List Nat) (sendSuccessAtErrorLogLevel : Bool) (ts : String)
    (jsonLevel : String) (t : LogType) (obj : GoValue) : List LogEvent :=
  match parseObj obj with
  | none => []
  | some (msg, isJSON) =>
    let msg' := if isJSON then addPayloadToJSON msg ts jsonLevel else msg
    engines.map (fun e => ⟨e, t, msg', isJSON, sendSuccessAtErrorLogLevel⟩)

end Logger

section QueueFacts

open Syslog

theorem queueMessage_length (C : Nat) (q : List String) (m : String) :
    (queueMessage C q m).length = if q.length > C then q.length else q.length + 1 := by
  unfold queueMessage
  by_cases h : q.length > C
  · simp [h]
    cases q with
    | nil => simp at h
    | cons a l => simp
  · simp [h]

/-- The queue length actually stabilizes at `maxQueueSize + 1`, not
`maxQueueSize`: starting at or below `C + 1`, it stays at or below `C + 1`. -/
theorem queueMessage_length_le (C : Nat) (q : List String) (m : String)
    (h : q.length ≤ C + 1) : (queueMessage C q m).length ≤ C + 1 := by
  rw [queueMessage_length]
  by_cases hgt : q.length > C
  · simp [hgt]; exact h
  · simp [hgt]; omega

end QueueFacts

/-- C1: claimed — after any enqueue the syslog queue length never exceeds
`maxQueueSize = C`, and more than `C` enqueues leave exactly the last `C`
messages.  The code evicts only when the length is strictly greater than
`maxQueueSize` (`uint(lg.queue.Len()) > lg.maxQueueSize`), so the queue
stabilizes at `C + 1` entries: with `C = 1`, two enqueues into an empty queue
leave 2 messages, and a third enqueue leaves the last 2 messages, not the
last 1. -/
theorem c1_queue_holds_one_more_than_capacity :
    (Syslog.enqueueAll 1 [] ["a", "b"]).length = 2 ∧
    Syslog.enqueueAll 1 [] ["a", "b", "c"] = ["b", "c"] := by
  constructor <;> rfl

section TrailingNewlineFacts

open Syslog

theorem length_takeWhile_append {α : Type} (p : α → Bool) (a b : List α) :
    (List.takeWhile p (a ++ b)).length =
      if (a.takeWhile p).length = a.length then
        a.length + (b.takeWhile p).length
      else
        (a.takeWhile p).length := by
  induction a with
  | nil => simp
  | cons x xs ih =>
    by_cases hx : p x = true
    · simp only [List.cons_append, List.takeWhile_cons, hx, if_true,
        List.length_cons, ih]
      by_cases hfull : (xs.takeWhile p).length = xs.length
      · simp [hfull]; omega
      · have hne : ¬((xs.takeWhile p).length + 1 = xs.length + 1) := by omega
        simp [hfull, hne]
    · have hx' : p x = false := by
        cases h : p x
        · rfl
        · exact absurd h hx
      simp only [List.cons_append, List.takeWhile_cons, hx']
      have : ¬((List.nil : List α).length = xs.length + 1) := by simp
      simp [hx']

theorem takeWhile_eq_nil_of_head {α : Type} (p : α → Bool) (c : α) (l : List α)
    (h : p c = false) : List.takeWhile p (c :: l) = [] := by
  simp [List.takeWhile_cons, h]

theorem trailingCountL_append_of_getLast {l₁ l₂ : List Char} {c : Char}
    (hl : l₁.getLast? = some c) (hc : (c == '\n') = false) :
    trailingCountL (l₁ ++ l₂) = trailingCountL l₂ := by
  unfold trailingCountL
  rw [List.reverse_append]
  have hrev : l₁.reverse.head? = some c := by rw [List.head?_reverse]; exact hl
  have hnil : l₁.reverse.takeWhile (fun c => c == '\n') = [] := by
    cases hrw : l₁.reverse with
    | nil => simp
    | cons d t =>
      have : d = c := by
        rw [hrw] at hrev
        simpa using hrev
      subst this
      exact takeWhile_eq_nil_of_head _ _ _ hc
  rw [length_takeWhile_append, hnil]
  by_cases hfull : ((l₂.reverse.takeWhile (fun c => c == '\n')).length = l₂.reverse.length)
  · simp [hfull]
  · simp only [List.length_nil]
    rw [if_neg hfull]

theorem trailingCountL_concat_newline (l : List Char) :
    trailingCountL (l ++ ['\n']) = trailingCountL l + 1 := by
  unfold trailingCountL
  rw [List.reverse_append]
  simp [List.takeWhile_cons]

theorem trailingCountL_pos_of_getLast_newline {l : List Char}
    (h : l.getLast? = some '\n') : 1 ≤ trailingCountL l := by
  unfold trailingCountL
  have hrev : l.reverse.head? = some '\n' := by rw [List.head?_reverse]; exact h
  cases hrw : l.reverse with
  | nil => rw [hrw] at hrev; simp at hrev
  | cons d t =>
    rw [hrw] at hrev
    have hd : d = '\n' := by simpa using hrev
    subst hd
    simp [List.takeWhile_cons]

theorem trailingCountL_eq_zero_of_getLast {l : List Char}
    (h : l.getLast? ≠ some '\n') : trailingCountL l = 0 := by
  unfold trailingCountL
  cases hrw : l.reverse with
  | nil => simp
  | cons d t =>
    have hrev : l.getLast? = some d := by
      rw [List.getLast?_eq_head?_reverse, hrw]; rfl
    have hd : (d == '\n') = false := by
      cases hbe : (d == '\n')
      · rfl
      · exact absurd (by rw [hrev, eq_of_beq hbe]) h
    simp [List.takeWhile_cons, hd]

theorem exists_concat_of_getLast_newline {l : List Char}
    (h : l.getLast? = some '\n') : ∃ l', l = l' ++ ['\n'] := by
  have hrev : l.reverse.head? = some '\n' := by rw [List.head?_reverse]; exact h
  cases hrw : l.reverse with
  | nil => rw [hrw] at hrev; simp at hrev
  | cons d t =>
    rw [hrw] at hrev
    have hd : d = '\n' := by simpa using hrev
    subst hd
    refine ⟨t.reverse, ?_⟩
    have := congrArg List.reverse hrw
    simpa using this

/-- TCP normalization yields `max 1 t` trailing newlines where `t` is the
input's trailing-newline count: one is appended exactly when none is present,
extra trailing newlines pass through untouched. -/
theorem trailingNewlineCount_normalize_tcp (msg : String) :
    trailingNewlineCount (normalizeNewline true msg) =
      max 1 (trailingNewlineCount msg) := by
  unfold normalizeNewline
  rw [if_pos rfl]
  by_cases h : hasTrailingNewline msg = true
  · have hlast : msg.data.getLast? = some '\n' := by
      unfold hasTrailingNewline at h
      simpa using h
    have hpos := trailingCountL_pos_of_getLast_newline hlast
    rw [if_pos h]
    unfold trailingNewlineCount at *
    exact (Nat.max_eq_right hpos).symm
  · have hlast : msg.data.getLast? ≠ some '\n' := by
      unfold hasTrailingNewline at h
      simpa using h
    have hzero := trailingCountL_eq_zero_of_getLast hlast
    rw [if_neg h]
    unfold trailingNewlineCount
    rw [String.data_append]
    have hd : ("\n" : String).data = ['\n'] := rfl
    rw [hd, trailingCountL_concat_newline, hzero]
    decide

/-- UDP normalization strips exactly one trailing newline (`TrimSuffix` with a
one-character suffix): the count drops by one, truncated at zero. -/
theorem trailingNewlineCount_normalize_udp (msg : String) :
    trailingNewlineCount (normalizeNewline false msg) =
      trailingNewlineCount msg - 1 := by
  unfold normalizeNewline
  rw [if_neg (by simp)]
  by_cases h : hasTrailingNewline msg = true
  · have hlast : msg.data.getLast? = some '\n' := by
      unfold hasTrailingNewline at h
      simpa using h
    obtain ⟨l', hl'⟩ := exists_concat_of_getLast_newline hlast
    rw [if_pos h]
    unfold trailingNewlineCount dropLastChar
    rw [hl']
    rw [List.dropLast_concat, trailingCountL_concat_newline]
    simp
  · have hlast : msg.data.getLast? ≠ some '\n' := by
      unfold hasTrailingNewline at h
      simpa using h
    have hzero := trailingCountL_eq_zero_of_getLast hlast
    rw [if_neg h]
    unfold trailingNewlineCount
    rw [hzero]

/-- The payload built by `writeString` ends with the normalized message, and
the fragment right before it ends in a space, so the payload's
trailing-newline count equals the normalized message's. -/
theorem trailingNewlineCount_writeString (cfg : Config) (facility severity : Nat)
    (now : DateTime) (msg : String) :
    trailingNewlineCount (writeString cfg facility severity now msg) =
      trailingNewlineCount (normalizeNewline cfg.useTcp msg) := by
  unfold trailingNewlineCount
  by_cases h : cfg.useRFC5424 = true
  · have hbr :
        writeString cfg facility severity now msg =
          ("<" ++ toString (facility * 8 + severity) ++ ">1 " ++
            formatRFC5424Time now ++ " " ++ cfg.hostname ++ " " ++ cfg.appName ++
            " " ++ toString cfg.pid ++ " - - ") ++
            normalizeNewline cfg.useTcp msg := by
      unfold writeString
      rw [h]
      rfl
    rw [hbr, String.data_append]
    refine trailingCountL_append_of_getLast (c := ' ') ?_ (by decide)
    rw [String.data_append, List.getLast?_append]
    rfl
  · have h' : cfg.useRFC5424 = false := by
      cases hb : cfg.useRFC5424
      · rfl
      · exact absurd hb h
    have hbr :
        writeString cfg facility severity now msg =
          ("<" ++ toString (facility * 8 + severity) ++ ">" ++
            formatLegacyTime now ++ " " ++ cfg.hostname ++ " ") ++
            normalizeNewline cfg.useTcp msg := by
      unfold writeString
      rw [h']
      rfl
    rw [hbr, String.data_append]
    refine trailingCountL_append_of_getLast (c := ' ') ?_ (by decide)
    rw [String.data_append, List.getLast?_append]
    rfl

end TrailingNewlineFacts

/-- C2 (counterexample to the claim as stated): with a message carrying two
trailing newlines, the TCP payload ends in two newlines (not exactly one) and
the UDP payload still ends in one newline (not zero): `HasSuffix` only tests
for the presence of one `\n` and `TrimSuffix` removes at most one. -/
theorem c2_counterexample :
    Syslog.trailingNewlineCount
        (Syslog.writeString ⟨"app", true, false, "host", 7⟩ 1 3
          ⟨2024, 1, 2, 3, 4, 5⟩ "a\n\n") = 2 ∧
    Syslog.trailingNewlineCount
        (Syslog.writeString ⟨"app", false, false, "host", 7⟩ 1 3
          ⟨2024, 1, 2, 3, 4, 5⟩ "a\n\n") = 1 := by
  constructor <;> decide

/-- C2 (amended): on TCP the queued payload ends in `max 1 t` newlines where
`t` is the input's trailing-newline count — exactly one newline whenever the
input had at most one, but extra trailing newlines are preserved; on UDP
exactly one trailing newline is stripped — the payload ends in `t - 1`
newlines, which is zero whenever the input had at most one. -/
theorem c2_trailing_newline_policy (cfg : Syslog.Config)
    (facility severity : Nat) (now : Syslog.DateTime) (msg : String) :
    (cfg.useTcp = true →
      Syslog.trailingNewlineCount (Syslog.writeString cfg facility severity now msg) =
        max 1 (Syslog.trailingNewlineCount msg)) ∧
    (cfg.useTcp = false →
      Syslog.trailingNewlineCount (Syslog.writeString cfg facility severity now msg) =
        Syslog.trailingNewlineCount msg - 1) := by
  constructor
  · intro h
    rw [trailingNewlineCount_writeString, h,
      trailingNewlineCount_normalize_tcp]
  · intro h
    rw [trailingNewlineCount_writeString, h,
      trailingNewlineCount_normalize_udp]

theorem c2_trailing_newline_policy_witness :
    Syslog.trailingNewlineCount
        (Syslog.writeString ⟨"app", true, false, "host", 7⟩ 1 3
          ⟨2024, 1, 2, 3, 4, 5⟩ "hello") =
      max 1 (Syslog.trailingNewlineCount "hello") ∧
    Syslog.trailingNewlineCount
        (Syslog.writeString ⟨"app", false, false, "host", 7⟩ 1 3
          ⟨2024, 1, 2, 3, 4, 5⟩ "hello\n") =
      Syslog.trailingNewlineCount "hello\n" - 1 :=
  ⟨(c2_trailing_newline_policy _ 1 3 _ "hello").1 rfl,
   (c2_trailing_newline_policy _ 1 3 _ "hello\n").2 rfl⟩

/-- C5: in structured (RFC 5424) mode the wire text is `<priority>1 `, the
timestamp in the literal year-day-month order `YYYY-DD-MMTHH:MM:SSZ` (Go
layout `2006-02-01T15:04:05Z`: `2006` = year, `02` = day, `01` = month), the
hostname, the app name, the pid, the literal ` - - `, and the (transport
normalized) message, in that order. -/
theorem c5_rfc5424_wire_format (cfg : Syslog.Config) (facility severity : Nat)
    (now : Syslog.DateTime) (msg : String) (h : cfg.useRFC5424 = true) :
    Syslog.writeString cfg facility severity now msg =
      "<" ++ toString (facility * 8 + severity) ++ ">1 " ++
        (Syslog.pad4 now.year ++ "-" ++ Syslog.pad2 now.day ++ "-" ++
          Syslog.pad2 now.month ++ "T" ++ Syslog.pad2 now.hour ++ ":" ++
          Syslog.pad2 now.minute ++ ":" ++ Syslog.pad2 now.second ++ "Z") ++
        " " ++ cfg.hostname ++ " " ++ cfg.appName ++ " " ++ toString cfg.pid ++
        " - - " ++ Syslog.normalizeNewline cfg.useTcp msg := by
  unfold Syslog.writeString
  rw [h]
  rfl

theorem c5_rfc5424_wire_format_witness :
    Syslog.writeString ⟨"app", false, true, "host", 7⟩ 1 3
        ⟨2024, 12, 31, 23, 59, 58⟩ "msg" =
      "<" ++ toString (1 * 8 + 3) ++ ">1 " ++
        (Syslog.pad4 2024 ++ "-" ++ Syslog.pad2 31 ++ "-" ++
          Syslog.pad2 12 ++ "T" ++ Syslog.pad2 23 ++ ":" ++
          Syslog.pad2 59 ++ ":" ++ Syslog.pad2 58 ++ "Z") ++
        " " ++ "host" ++ " " ++ "app" ++ " " ++ toString 7 ++
        " - - " ++ Syslog.normalizeNewline false "msg" :=
  c5_rfc5424_wire_format ⟨"app", false, true, "host", 7⟩ 1 3
    ⟨2024, 12, 31, 23, 59, 58⟩ "msg" rfl

section PriorityFacts

open Syslog

theorem takeWhile_digits_append (ds rest : List Char)
    (h : ds.all Char.isDigit = true) :
    (ds ++ '>' :: rest).takeWhile Char.isDigit = ds := by
  induction ds with
  | nil =>
    simp [List.takeWhile_cons, show Char.isDigit '>' = false from rfl]
  | cons d t ih =>
    rw [List.all_cons, Bool.and_eq_true] at h
    simp [List.takeWhile_cons, h.1, ih h.2]

theorem emittedPriority_data (s : String) (ds r : List Char)
    (hs : s.data = '<' :: (ds ++ '>' :: r))
    (hds : ds.all Char.isDigit = true) :
    emittedPriority s = digitsToNat ds := by
  unfold emittedPriority
  rw [hs]
  simp only [List.drop_succ_cons, List.drop_zero]
  rw [takeWhile_digits_append _ _ hds]

/-- The payload emitted by `writeString` carries the priority
`facility * 8 + severity` between `<` and `>`. -/
theorem emittedPriority_writeString (cfg : Config) (facility severity : Nat)
    (now : DateTime) (msg : String)
    (h : (toString (facility * 8 + severity)).data.all Char.isDigit = true) :
    emittedPriority (writeString cfg facility severity now msg) =
      digitsToNat (toString (facility * 8 + severity)).data := by
  by_cases hb : cfg.useRFC5424 = true
  · have hr : writeString cfg facility severity now msg =
        "<" ++ (toString (facility * 8 + severity) ++ (">1 " ++
          (formatRFC5424Time now ++ (" " ++ (cfg.hostname ++ (" " ++
            (cfg.appName ++ (" " ++ (toString cfg.pid ++ (" - - " ++
              normalizeNewline cfg.useTcp msg)))))))))) := by
      unfold writeString
      rw [hb]
      simp [String.append_assoc]
    refine emittedPriority_data _ _
      ('1' :: ' ' :: (formatRFC5424Time now ++ (" " ++ (cfg.hostname ++ (" " ++
        (cfg.appName ++ (" " ++ (toString cfg.pid ++ (" - - " ++
          normalizeNewline cfg.useTcp msg)))))))).data) ?_ h
    rw [hr]
    rfl
  · have hb' : cfg.useRFC5424 = false := by
      cases hbv : cfg.useRFC5424
      · rfl
      · exact absurd hbv hb
    have hr : writeString cfg facility severity now msg =
        "<" ++ (toString (facility * 8 + severity) ++ (">" ++
          (formatLegacyTime now ++ (" " ++ (cfg.hostname ++ (" " ++
            normalizeNewline cfg.useTcp msg)))))) := by
      unfold writeString
      rw [hb']
      simp [String.append_assoc]
    refine emittedPriority_data _ _
      ((formatLegacyTime now ++ (" " ++ (cfg.hostname ++ (" " ++
        normalizeNewline cfg.useTcp msg)))).data) ?_ h
    rw [hr]
    rfl

end PriorityFacts

section FlushFacts

open Syslog

theorem flushLoop_suffix (d : Nat) (envs : Nat → StepEnv) :
    ∀ (q : List String) (i : Nat) (conn : Bool),
      ∃ k, k ≤ q.length ∧ (flushLoop d envs i conn q).2 = q.drop k := by
  intro q
  induction q with
  | nil => intro i conn; exact ⟨0, by simp [flushLoop]⟩
  | cons m rest ih =>
    intro i conn
    by_cases hok : (writeBytesModel d conn (envs i)).2 = true
    · obtain ⟨k, hk, hres⟩ := ih (i + 1) (writeBytesModel d conn (envs i)).1
      refine ⟨k + 1, by simp; omega, ?_⟩
      simp only [flushLoop, hok, if_true]
      simpa using hres
    · refine ⟨1, by simp, ?_⟩
      simp only [flushLoop]
      rw [if_neg hok]
      rfl

theorem flushLoop_stops_on_failed_send (d : Nat) (envs : Nat → StepEnv)
    (i : Nat) (conn : Bool) (m : String) (rest : List String)
    (hfail : (writeBytesModel d conn (envs i)).2 = false) :
    flushLoop d envs i conn (m :: rest) =
      ((writeBytesModel d conn (envs i)).1, rest) := by
  simp only [flushLoop]
  rw [if_neg (by simp [hfail])]

/-- Once the deadline has passed, a send attempt that has no established
connection must dial, and the dial fails. -/
theorem writeBytesModel_fails_after_deadline (d : Nat) (e : StepEnv)
    (ht : d ≤ e.time) : writeBytesModel d false e = (false, false) := by
  unfold writeBytesModel connectModel
  have : decide (e.time < d) = false := by simp; omega
  simp [this]

end FlushFacts

/-- C3 (counterexample to the claim as stated): the 5-second deadline is only
consulted by `DialContext`; `conn.Write` on an established connection never
checks the context.  With an established, healthy connection and the i-th
send running at second i, a 7-message drain started at second 0 performs its
last send at second 6 — after the 5-second deadline has expired — and drains
everything instead of stopping, so destroy does not return within the fixed
flush deadline. -/
theorem c3_counterexample :
    (Syslog.flushQueueModel 0 (fun i => ⟨i, true, true, true⟩) true
        ["m1", "m2", "m3", "m4", "m5", "m6", "m7"]).2 = [] ∧
    0 + Syslog.flushTimeout ≤ ((fun i => (⟨i, true, true, true⟩ : Syslog.StepEnv)) 6).time := by
  constructor <;> decide

/-- C3 (amended): the post-worker drain dequeues remaining messages one at a
time, front first (the remaining queue is always a suffix of the original);
it stops at the first failed send, the failing message already lost; the
context deadline is `flushTimeout` (5 seconds) from the start of draining and
is enforced when dialing — once it has passed, any send needing to establish
a connection fails, so a drain without an established connection stops after
consuming at most the front message; and destroy finally closes the
connection.  (Writes on an already-established connection do not consult the
deadline, so a healthy connection can keep draining past it.) -/
theorem c3_flush_drain_behavior (start : Nat) (envs : Nat → Syslog.StepEnv)
    (conn : Bool) (q : List String) :
    (∃ k, k ≤ q.length ∧
      (Syslog.flushQueueModel start envs conn q).2 = q.drop k) ∧
    ((Syslog.writeBytesModel (start + Syslog.flushTimeout) conn (envs 0)).2 = false →
      q ≠ [] →
      (Syslog.flushQueueModel start envs conn q).2 = q.tail) ∧
    (conn = false →
      (∀ i, start + Syslog.flushTimeout ≤ (envs i).time) →
      q ≠ [] →
      (Syslog.flushQueueModel start envs conn q).2 = q.tail) ∧
    (∀ s : Syslog.EngineState, s.destroyed = false →
      ((Syslog.Destroy start envs s).1).conn = false) := by
  refine ⟨?_, ?_, ?_, ?_⟩
  · exact flushLoop_suffix (start + Syslog.flushTimeout) envs q 0 conn
  · intro hfail hq
    cases q with
    | nil => exact absurd rfl hq
    | cons m rest =>
      unfold Syslog.flushQueueModel
      rw [flushLoop_stops_on_failed_send _ _ _ _ _ _ hfail]
      rfl
  · intro hconn ht hq
    subst hconn
    cases q with
    | nil => exact absurd rfl hq
    | cons m rest =>
      have hfail : (Syslog.writeBytesModel (start + Syslog.flushTimeout) false (envs 0)).2 = false := by
        rw [writeBytesModel_fails_after_deadline _ _ (ht 0)]
      unfold Syslog.flushQueueModel
      rw [flushLoop_stops_on_failed_send _ _ _ _ _ _ hfail]
      rfl
  · intro s hs
    unfold Syslog.Destroy
    rw [if_neg (by simp [hs])]

theorem c3_flush_drain_behavior_witness :
    (∃ k, k ≤ (["a", "b"] : List String).length ∧
      (Syslog.flushQueueModel 0 (fun i => ⟨10 + i, false, false, false⟩) false
        ["a", "b"]).2 = (["a", "b"] : List String).drop k) ∧
    (Syslog.flushQueueModel 0 (fun i => ⟨10 + i, false, false, false⟩) false
        ["a", "b"]).2 = (["a", "b"] : List String).tail ∧
    (Syslog.flushQueueModel 0 (fun i => ⟨10 + i, false, false, false⟩) false
        ["a", "b"]).2 = (["a", "b"] : List String).tail ∧
    ((Syslog.Destroy 0 (fun i => ⟨10 + i, false, false, false⟩)
        ⟨true, ["a", "b"], false⟩).1).conn = false :=
  ⟨(c3_flush_drain_behavior 0 (fun i => ⟨10 + i, false, false, false⟩) false ["a", "b"]).1,
   (c3_flush_drain_behavior 0 (fun i => ⟨10 + i, false, false, false⟩) false ["a", "b"]).2.1
     (by decide) (by decide),
   (c3_flush_drain_behavior 0 (fun i => ⟨10 + i, false, false, false⟩) false ["a", "b"]).2.2.1
     rfl (fun i => by simp [Syslog.flushTimeout]; omega) (by decide),
   (c3_flush_drain_behavior 0 (fun i => ⟨10 + i, false, false, false⟩) false ["a", "b"]).2.2.2
     ⟨true, ["a", "b"], false⟩ rfl⟩

/-- C4 (counterexample to the claim as stated): the engine records only
`now.Day()` — the day of the month — in `dayOfFile`.  A file opened on
2024-01-05 and a write timestamped 2024-02-05 fall on different calendar
days, yet with no size caps set the code does not rotate, because both dates
have day-of-month 5. -/
theorem c4_counterexample :
    File.openOrRotateFile ⟨0, 0, 0⟩
        (File.openOrRotateFile ⟨0, 0, 0⟩ (File.initialState 0)
          ⟨2024, 1, 5, 0, 0, 0⟩ 10 0)
        ⟨2024, 2, 5, 0, 0, 0⟩ 10 0 =
      File.openOrRotateFile ⟨0, 0, 0⟩ (File.initialState 0)
        ⟨2024, 1, 5, 0, 0, 0⟩ 10 0 ∧
    File.rotateNeeded ⟨0, 0, 0⟩
        (File.openOrRotateFile ⟨0, 0, 0⟩ (File.initialState 0)
          ⟨2024, 1, 5, 0, 0, 0⟩ 10 0)
        ⟨2024, 2, 5, 0, 0, 0⟩ 10 = false ∧
    ((⟨2024, 1, 5, 0, 0, 0⟩ : Syslog.DateTime).month ≠
      (⟨2024, 2, 5, 0, 0, 0⟩ : Syslog.DateTime).month) := by
  refine ⟨rfl, by decide, by decide⟩

/-- C4 (amended): `openOrRotateFile` rotates if and only if no file is open,
or the day-of-month of the write timestamp differs from the recorded
day-of-month of the open file, or `maxFileSize` is set and
`currentSize + incomingLen > maxFileSize`, or `maxFileVaultSize` is set and
`currentVaultSize + incomingLen > maxFileVaultSize`; otherwise the open file,
the counters and the sub-file index are unchanged. -/
theorem c4_rotation_condition (cfg : File.Config) (s : File.State)
    (now : Syslog.DateTime) (msgLen : Nat) (purgedVaultSize : Int) :
    (File.rotateNeeded cfg s now msgLen = true ↔
      (s.fdOpen = false ∨ (now.day : Int) ≠ s.dayOfFile ∨
        (cfg.maxFileSize > 0 ∧
          s.currentFileSize + (msgLen : Int) > cfg.maxFileSize) ∨
        (cfg.maxFileVaultSize > 0 ∧
          s.currentFileVaultSize + (msgLen : Int) > cfg.maxFileVaultSize))) ∧
    (File.rotateNeeded cfg s now msgLen = false →
      File.openOrRotateFile cfg s now msgLen purgedVaultSize = s) := by
  constructor
  · unfold File.rotateNeeded
    cases h : s.fdOpen <;>
      simp [Bool.or_eq_true, Bool.and_eq_true, decide_eq_true_iff, or_assoc]
  · intro h
    unfold File.openOrRotateFile
    rw [if_neg (by simp [h])]

theorem c4_rotation_condition_witness :
    File.openOrRotateFile ⟨0, 100, 0⟩ ⟨true, 5, 1, 10, 10⟩
        ⟨2024, 3, 5, 0, 0, 0⟩ 4 77 = ⟨true, 5, 1, 10, 10⟩ :=
  (c4_rotation_condition ⟨0, 100, 0⟩ ⟨true, 5, 1, 10, 10⟩
    ⟨2024, 3, 5, 0, 0, 0⟩ 4 77).2 (by decide)

/-- C8: construction-time clamps — a nonzero `maxFileSize` ends up at least
10KB; a nonzero `maxFileVaultSize` ends up at least 100KB and at least the
clamped `maxFileSize`; `daysToKeep` ends up at most 365. -/
theorem c8_construction_clamps (opts : File.Options) :
    (opts.maxFileSize ≠ 0 →
      (File.NewEngineConfig opts).maxFileSize ≥ (File.minFileSize : Int)) ∧
    (opts.maxFileVaultSize ≠ 0 →
      (File.NewEngineConfig opts).maxFileVaultSize ≥ (File.minFileVaultSize : Int) ∧
      (File.NewEngineConfig opts).maxFileVaultSize ≥
        (File.NewEngineConfig opts).maxFileSize) ∧
    (File.NewEngineConfig opts).daysToKeep ≤ 365 := by
  have h365 : (File.NewEngineConfig opts).daysToKeep =
      if opts.daysToKeep < 365 then opts.daysToKeep else 365 := rfl
  have hmfs : (File.NewEngineConfig opts).maxFileSize =
      if 0 < opts.maxFileSize then
        if File.maxInt64 < opts.maxFileSize then (File.maxInt64 : Int)
        else if opts.maxFileSize < File.minFileSize then (File.minFileSize : Int)
        else (opts.maxFileSize : Int)
      else 0 := rfl
  have hmfv : (File.NewEngineConfig opts).maxFileVaultSize =
      if 0 < opts.maxFileVaultSize then
        if (if File.maxInt64 < opts.maxFileVaultSize then (File.maxInt64 : Int)
            else if opts.maxFileVaultSize < File.minFileVaultSize then (File.minFileVaultSize : Int)
            else (opts.maxFileVaultSize : Int)) < (File.NewEngineConfig opts).maxFileSize then
          (File.NewEngineConfig opts).maxFileSize
        else
          (if File.maxInt64 < opts.maxFileVaultSize then (File.maxInt64 : Int)
            else if opts.maxFileVaultSize < File.minFileVaultSize then (File.minFileVaultSize : Int)
            else (opts.maxFileVaultSize : Int))
      else 0 := rfl
  refine ⟨?_, ?_, ?_⟩
  · intro h
    have h0 : 0 < opts.maxFileSize := Nat.pos_of_ne_zero h
    rw [ge_iff_le, hmfs, if_pos h0]
    split_ifs with h1 h2
    · simp only [File.minFileSize, File.maxInt64]
      omega
    · exact le_refl _
    · simp only [File.minFileSize] at h2 ⊢
      omega
  · intro h
    have h0 : 0 < opts.maxFileVaultSize := Nat.pos_of_ne_zero h
    have hlo : (File.minFileVaultSize : Int) ≤
        (if File.maxInt64 < opts.maxFileVaultSize then (File.maxInt64 : Int)
          else if opts.maxFileVaultSize < File.minFileVaultSize then (File.minFileVaultSize : Int)
          else (opts.maxFileVaultSize : Int)) := by
      split_ifs with h1 h2
      · simp only [File.minFileVaultSize, File.maxInt64]
        omega
      · exact le_refl _
      · simp only [File.minFileVaultSize] at h2 ⊢
        omega
    by_cases hraise :
        (if File.maxInt64 < opts.maxFileVaultSize then (File.maxInt64 : Int)
          else if opts.maxFileVaultSize < File.minFileVaultSize then (File.minFileVaultSize : Int)
          else (opts.maxFileVaultSize : Int)) < (File.NewEngineConfig opts).maxFileSize
    · constructor
      · rw [ge_iff_le, hmfv, if_pos h0, if_pos hraise]
        exact le_trans hlo hraise.le
      · rw [ge_iff_le, hmfv, if_pos h0, if_pos hraise]
    · constructor
      · rw [ge_iff_le, hmfv, if_pos h0, if_neg hraise]
        exact hlo
      · rw [ge_iff_le, hmfv, if_pos h0, if_neg hraise]
        exact le_of_not_lt hraise
  · rw [h365]
    split_ifs <;> omega

theorem c8_construction_clamps_witness :
    (File.NewEngineConfig ⟨400, 5, 7⟩).maxFileSize ≥ (File.minFileSize : Int) ∧
    ((File.NewEngineConfig ⟨400, 5, 7⟩).maxFileVaultSize ≥
        (File.minFileVaultSize : Int) ∧
      (File.NewEngineConfig ⟨400, 5, 7⟩).maxFileVaultSize ≥
        (File.NewEngineConfig ⟨400, 5, 7⟩).maxFileSize) ∧
    (File.NewEngineConfig ⟨400, 5, 7⟩).daysToKeep ≤ 365 :=
  ⟨(c8_construction_clamps ⟨400, 5, 7⟩).1 (by decide),
   (c8_construction_clamps ⟨400, 5, 7⟩).2.1 (by decide),
   (c8_construction_clamps ⟨400, 5, 7⟩).2.2⟩

section PurgeFacts

open File

theorem length_takeWhile_le {α : Type} (p : α → Bool) (l : List α) :
    (l.takeWhile p).length ≤ l.length := by
  induction l with
  | nil => simp
  | cons a t ih =>
    rw [List.takeWhile_cons]
    by_cases h : p a = true
    · simp [h]; omega
    · simp [h]

theorem sumSizes_nil : sumSizes [] = 0 := rfl

theorem sumSizes_cons (f : LogFile) (t : List LogFile) :
    sumSizes (f :: t) = f.fileSize + sumSizes t := by
  simp [sumSizes]

theorem sumSizes_take_drop (l : List LogFile) (k : Nat) :
    sumSizes l = sumSizes (l.take k) + sumSizes (l.drop k) := by
  conv_lhs => rw [← List.take_append_drop k l]
  simp [sumSizes, List.map_append, List.sum_append]

/-- Full characterization of the vault-size eviction loop. -/
theorem evictOldest_spec (required : Int) (l : List LogFile) :
    ∀ v : Int,
      (evictOldest required v l).2 ≤ l.length ∧
      (evictOldest required v l).1 =
        v - sumSizes (l.take (evictOldest required v l).2) ∧
      ((evictOldest required v l).1 ≤ required ∨
        (evictOldest required v l).2 = l.length) ∧
      (∀ j < (evictOldest required v l).2,
        required < v - sumSizes (l.take j)) := by
  induction l with
  | nil =>
    intro v
    refine ⟨by simp [evictOldest], by simp [evictOldest, sumSizes_nil], ?_, ?_⟩
    · exact Or.inr (by simp [evictOldest])
    · intro j hj
      simp [evictOldest] at hj
  | cons f rest ih =>
    intro v
    by_cases h : required < v
    · have heq : evictOldest required v (f :: rest) =
          ((evictOldest required (v - f.fileSize) rest).1,
            (evictOldest required (v - f.fileSize) rest).2 + 1) := by
        simp only [evictOldest]
        rw [if_pos h]
      obtain ⟨ih1, ih2, ih3, ih4⟩ := ih (v - f.fileSize)
      rw [heq]
      refine ⟨by simp; omega, ?_, ?_, ?_⟩
      · rw [List.take_succ_cons, sumSizes_cons, ih2]
        omega
      · rcases ih3 with h3 | h3
        · exact Or.inl h3
        · exact Or.inr (by simp [h3])
      · intro j hj
        cases j with
        | zero => simpa [sumSizes_nil] using h
        | succ j' =>
          have hj' : j' < (evictOldest required (v - f.fileSize) rest).2 := by omega
          have := ih4 j' hj'
          rw [List.take_succ_cons, sumSizes_cons]
          omega
    · have heq : evictOldest required v (f :: rest) = (v, 0) := by
        simp only [evictOldest]
        rw [if_neg h]
      rw [heq]
      refine ⟨by simp, by simp [sumSizes_nil], Or.inl (le_of_not_lt h), ?_⟩
      intro j hj
      simp at hj

theorem mem_drop_daysCutoff_of_sorted (lowest : Int) :
    ∀ l : List LogFile, List.Sorted createdLE l →
      ∀ f ∈ l.drop ((l.takeWhile (fun f => decide (f.createdAt < lowest))).length),
        lowest ≤ f.createdAt := by
  intro l
  induction l with
  | nil => intro _ f hf; simp at hf
  | cons a t ih =>
    intro hs f hf
    rw [List.sorted_cons] at hs
    by_cases ha : a.createdAt < lowest
    · rw [List.takeWhile_cons, if_pos (by simpa using ha)] at hf
      simp only [List.length_cons, List.drop_succ_cons] at hf
      exact ih hs.2 f hf
    · rw [List.takeWhile_cons, if_neg (by simpa using ha)] at hf
      simp only [List.length_nil, List.drop_zero] at hf
      rcases List.mem_cons.mp hf with h | h
      · subst h; exact le_of_not_lt ha
      · exact le_trans (le_of_not_lt ha) (hs.1 f h)

end PurgeFacts

/-- C7: on a purge pass with at least one cap set, the `.log` files of the
directory are sorted ascending by creation time (a permutation of the
filtered listing); there is a final cutoff `k` at or past the retention-days
cutoff such that exactly the files strictly before position `k` are deleted
and the total size of the remaining files is returned; when `daysToKeep > 0`
every remaining file is at least as new as `now_UTC - daysToKeep` days (the
cutoff was advanced past every strictly older file); when the vault cap is
set, the cutoff advanced oldest-first exactly while the remaining size
exceeded `maxFileVaultSize - 10KB` (each position between the retention
cutoff and `k` still exceeded the headroom, and at `k` the size fits or the
listing is exhausted); with no vault cap the cutoff is the retention cutoff
alone. -/
theorem c7_purge_behavior (daysToKeep : Nat) (maxFileVaultSize lowest : Int)
    (entries : List File.DirEntry)
    (hcap : ¬(daysToKeep = 0 ∧ maxFileVaultSize = 0)) :
    List.Sorted File.createdLE (File.sortedLogFiles entries) ∧
    (File.sortedLogFiles entries).Perm (File.filteredLogFiles entries) ∧
    ∃ k,
      File.daysCutoff daysToKeep lowest (File.sortedLogFiles entries) ≤ k ∧
      k ≤ (File.sortedLogFiles entries).length ∧
      (File.purgeFileVault daysToKeep maxFileVaultSize lowest entries).1 =
        (File.sortedLogFiles entries).take k ∧
      (File.purgeFileVault daysToKeep maxFileVaultSize lowest entries).2 =
        File.sumSizes ((File.sortedLogFiles entries).drop k) ∧
      (0 < daysToKeep →
        ∀ f ∈ (File.sortedLogFiles entries).drop k, lowest ≤ f.createdAt) ∧
      (0 < maxFileVaultSize →
        (File.sumSizes ((File.sortedLogFiles entries).drop k) ≤
            maxFileVaultSize - (File.minFileSize : Int) ∨
          k = (File.sortedLogFiles entries).length) ∧
        (∀ j, File.daysCutoff daysToKeep lowest (File.sortedLogFiles entries) ≤ j →
          j < k →
          maxFileVaultSize - (File.minFileSize : Int) <
            File.sumSizes ((File.sortedLogFiles entries).drop j))) ∧
      (¬0 < maxFileVaultSize →
        k = File.daysCutoff daysToKeep lowest (File.sortedLogFiles entries)) := by
  have hsorted : List.Sorted File.createdLE (File.sortedLogFiles entries) :=
    List.sorted_insertionSort File.createdLE (File.filteredLogFiles entries)
  have hperm : (File.sortedLogFiles entries).Perm (File.filteredLogFiles entries) :=
    List.perm_insertionSort File.createdLE (File.filteredLogFiles entries)
  refine ⟨hsorted, hperm, ?_⟩
  set F := File.sortedLogFiles entries with hF
  set c1 := File.daysCutoff daysToKeep lowest F with hc1
  have hc1le : c1 ≤ F.length := by
    rw [hc1]
    unfold File.daysCutoff
    split_ifs
    · exact length_takeWhile_le _ _
    · exact Nat.zero_le _
  by_cases hv : 0 < maxFileVaultSize
  · set e := File.evictOldest (maxFileVaultSize - (File.minFileSize : Int))
        (File.sumSizes (F.drop c1)) (F.drop c1) with he
    have hpurge : File.purgeFileVault daysToKeep maxFileVaultSize lowest entries =
        (F.take (c1 + e.2), e.1) := by
      rw [he, hc1, hF]
      simp only [File.purgeFileVault]
      rw [if_neg hcap, if_pos hv]
    obtain ⟨hs1, hs2, hs3, hs4⟩ :=
      evictOldest_spec (maxFileVaultSize - (File.minFileSize : Int))
        (F.drop c1) (File.sumSizes (F.drop c1))
    rw [← he] at hs1 hs2 hs3 hs4
    have hdroplen : (F.drop c1).length = F.length - c1 := by simp
    have hsum_drop : ∀ m : Nat, File.sumSizes ((F.drop c1).drop m) =
        File.sumSizes (F.drop (c1 + m)) :=
      fun m => congrArg File.sumSizes (List.drop_drop m c1 F)
    have hsum_take : ∀ m : Nat,
        File.sumSizes (F.drop c1) -
          File.sumSizes ((F.drop c1).take m) =
          File.sumSizes ((F.drop c1).drop m) := by
      intro m
      have := sumSizes_take_drop (F.drop c1) m
      omega
    refine ⟨c1 + e.2, Nat.le_add_right _ _, by omega, ?_, ?_, ?_, ?_, ?_⟩
    · rw [hpurge]
    · rw [hpurge]
      rw [hs2, hsum_take e.2, hsum_drop e.2]
    · intro hd f hf
      have hdd : F.drop (c1 + e.2) = (F.drop c1).drop e.2 :=
        (List.drop_drop e.2 c1 F).symm
      rw [hdd] at hf
      have hmem : f ∈ F.drop c1 := List.mem_of_mem_drop hf
      have hc1eq : c1 = (F.takeWhile (fun f => decide (f.createdAt < lowest))).length := by
        rw [hc1]
        unfold File.daysCutoff
        rw [if_pos hd]
      exact mem_drop_daysCutoff_of_sorted lowest F hsorted f
        (by rw [← hc1eq]; exact hmem)
    · intro _
      constructor
      · rcases hs3 with h3 | h3
        · left
          rw [hs2, hsum_take e.2, hsum_drop e.2] at h3
          exact h3
        · right
          omega
      · intro j hj1 hj2
        have hj' : j - c1 < e.2 := by omega
        have := hs4 (j - c1) hj'
        rw [hsum_take (j - c1), hsum_drop (j - c1)] at this
        have hjc : c1 + (j - c1) = j := by omega
        rw [hjc] at this
        exact this
    · intro h
      exact absurd hv h
  · have hr : File.purgeFileVault daysToKeep maxFileVaultSize lowest entries =
        (F.take (c1 + 0), File.sumSizes (F.drop c1)) := by
      rw [hc1, hF]
      simp only [File.purgeFileVault]
      rw [if_neg hcap, if_neg hv]
    refine ⟨c1, le_refl _, hc1le, ?_, ?_, ?_, ?_, ?_⟩
    · rw [hr]
      simp
    · rw [hr]
    · intro hd f hf
      have hc1eq : c1 = (F.takeWhile (fun f => decide (f.createdAt < lowest))).length := by
        rw [hc1]
        unfold File.daysCutoff
        rw [if_pos hd]
      exact mem_drop_daysCutoff_of_sorted lowest F hsorted f
        (by rw [← hc1eq]; exact hf)
    · intro h
      exact absurd h hv
    · intro _
      rfl

theorem c7_purge_behavior_witness :
    List.Sorted File.createdLE
      (File.sortedLogFiles
        [⟨"a.log", false, 50, 10⟩, ⟨"b.log", false, 60, 5⟩,
          ⟨"skip.txt", false, 1, 1⟩, ⟨"d.log", true, 2, 2⟩]) ∧
    (File.sortedLogFiles
        [⟨"a.log", false, 50, 10⟩, ⟨"b.log", false, 60, 5⟩,
          ⟨"skip.txt", false, 1, 1⟩, ⟨"d.log", true, 2, 2⟩]).Perm
      (File.filteredLogFiles
        [⟨"a.log", false, 50, 10⟩, ⟨"b.log", false, 60, 5⟩,
          ⟨"skip.txt", false, 1, 1⟩, ⟨"d.log", true, 2, 2⟩]) ∧
    ∃ k,
      File.daysCutoff 1 7 (File.sortedLogFiles
        [⟨"a.log", false, 50, 10⟩, ⟨"b.log", false, 60, 5⟩,
          ⟨"skip.txt", false, 1, 1⟩, ⟨"d.log", true, 2, 2⟩]) ≤ k ∧
      k ≤ (File.sortedLogFiles
        [⟨"a.log", false, 50, 10⟩, ⟨"b.log", false, 60, 5⟩,
          ⟨"skip.txt", false, 1, 1⟩, ⟨"d.log", true, 2, 2⟩]).length ∧
      (File.purgeFileVault 1 0 7
        [⟨"a.log", false, 50, 10⟩, ⟨"b.log", false, 60, 5⟩,
          ⟨"skip.txt", false, 1, 1⟩, ⟨"d.log", true, 2, 2⟩]).1 =
        (File.sortedLogFiles
        [⟨"a.log", false, 50, 10⟩, ⟨"b.log", false, 60, 5⟩,
          ⟨"skip.txt", false, 1, 1⟩, ⟨"d.log", true, 2, 2⟩]).take k ∧
      (File.purgeFileVault 1 0 7
        [⟨"a.log", false, 50, 10⟩, ⟨"b.log", false, 60, 5⟩,
          ⟨"skip.txt", false, 1, 1⟩, ⟨"d.log", true, 2, 2⟩]).2 =
        File.sumSizes ((File.sortedLogFiles
        [⟨"a.log", false, 50, 10⟩, ⟨"b.log", false, 60, 5⟩,
          ⟨"skip.txt", false, 1, 1⟩, ⟨"d.log", true, 2, 2⟩]).drop k) ∧
      (0 < (1 : Nat) →
        ∀ f ∈ (File.sortedLogFiles
        [⟨"a.log", false, 50, 10⟩, ⟨"b.log", false, 60, 5⟩,
          ⟨"skip.txt", false, 1, 1⟩, ⟨"d.log", true, 2, 2⟩]).drop k,
          (7 : Int) ≤ f.createdAt) ∧
      (0 < (0 : Int) →
        (File.sumSizes ((File.sortedLogFiles
        [⟨"a.log", false, 50, 10⟩, ⟨"b.log", false, 60, 5⟩,
          ⟨"skip.txt", false, 1, 1⟩, ⟨"d.log", true, 2, 2⟩]).drop k) ≤
            (0 : Int) - (File.minFileSize : Int) ∨
          k = (File.sortedLogFiles
        [⟨"a.log", false, 50, 10⟩, ⟨"b.log", false, 60, 5⟩,
          ⟨"skip.txt", false, 1, 1⟩, ⟨"d.log", true, 2, 2⟩]).length) ∧
        (∀ j, File.daysCutoff 1 7 (File.sortedLogFiles
        [⟨"a.log", false, 50, 10⟩, ⟨"b.log", false, 60, 5⟩,
          ⟨"skip.txt", false, 1, 1⟩, ⟨"d.log", true, 2, 2⟩]) ≤ j →
          j < k →
          (0 : Int) - (File.minFileSize : Int) <
            File.sumSizes ((File.sortedLogFiles
        [⟨"a.log", false, 50, 10⟩, ⟨"b.log", false, 60, 5⟩,
          ⟨"skip.txt", false, 1, 1⟩, ⟨"d.log", true, 2, 2⟩]).drop j))) ∧
      (¬0 < (0 : Int) →
        k = File.daysCutoff 1 7 (File.sortedLogFiles
        [⟨"a.log", false, 50, 10⟩, ⟨"b.log", false, 60, 5⟩,
          ⟨"skip.txt", false, 1, 1⟩, ⟨"d.log", true, 2, 2⟩])) :=
  c7_purge_behavior 1 0 7
    [⟨"a.log", false, 50, 10⟩, ⟨"b.log", false, 60, 5⟩,
      ⟨"skip.txt", false, 1, 1⟩, ⟨"d.log", true, 2, 2⟩]
    (by decide)

/-- C9: destroy is idempotent for both engines.  The syslog engine guards the
shutdown body with `sync.Once`, so a second destroy returns the state
untouched and performs no `Close`; the file engine closes and nulls the file
handle on the first call, so the second call finds `fd == nil`, performs no
`Close` and changes nothing. -/
theorem c9_destroy_idempotent :
    (∀ (start start' : Nat) (envs envs' : Nat → Syslog.StepEnv)
        (s : Syslog.EngineState),
      Syslog.Destroy start' envs' (Syslog.Destroy start envs s).1 =
        ((Syslog.Destroy start envs s).1, 0)) ∧
    (∀ s : File.State,
      File.Destroy (File.Destroy s).1 = ((File.Destroy s).1, 0)) := by
  constructor
  · intro start start' envs envs' s
    by_cases h : s.destroyed = true
    · simp [Syslog.Destroy, h]
    · simp [Syslog.Destroy, h]
  · intro s
    by_cases h : s.fdOpen = true
    · simp [File.Destroy, h]
    · simp [File.Destroy, h]

/-- C6: every emitted payload carries priority `facility * 8 + severity` with
facility fixed to 1 (user-level): error maps to severity 3 (priority 11),
warning to 4 (12), informational to 6 (14), debug to 7 (15), and a success
message maps to severity 3 when the engine treats success as error-level and
to severity 6 otherwise. -/
theorem c6_priority_mapping (cfg : Syslog.Config) (now : Syslog.DateTime)
    (msg : String) (raw : Bool) (successAtError : Bool) :
    Syslog.emittedPriority (Syslog.Error cfg now msg raw) = 1 * 8 + 3 ∧
    Syslog.emittedPriority (Syslog.Warning cfg now msg raw) = 1 * 8 + 4 ∧
    Syslog.emittedPriority (Syslog.Info cfg now msg raw) = 1 * 8 + 6 ∧
    Syslog.emittedPriority (Syslog.Debug cfg now msg raw) = 1 * 8 + 7 ∧
    Syslog.emittedPriority (Syslog.Success cfg now msg raw successAtError) =
      1 * 8 + (if successAtError then 3 else 6) := by
  refine ⟨?_, ?_, ?_, ?_, ?_⟩
  · exact (emittedPriority_writeString cfg Syslog.facilityUser
      Syslog.severityError now msg (by decide)).trans (by decide)
  · exact (emittedPriority_writeString cfg Syslog.facilityUser
      Syslog.severityWarning now msg (by decide)).trans (by decide)
  · exact (emittedPriority_writeString cfg Syslog.facilityUser
      Syslog.severityInformational now msg (by decide)).trans (by decide)
  · exact (emittedPriority_writeString cfg Syslog.facilityUser
      Syslog.severityDebug now msg (by decide)).trans (by decide)
  · unfold Syslog.Success
    cases successAtError
    · rw [if_neg (by decide), if_neg (by decide)]
      exact (emittedPriority_writeString cfg Syslog.facilityUser
        Syslog.severityInformational now msg (by decide)).trans (by decide)
    · rw [if_pos rfl, if_pos rfl]
      exact (emittedPriority_writeString cfg Syslog.facilityUser
        Syslog.severityError now msg (by decide)).trans (by decide)

/-- C10: a value whose dynamic type is not a string, a struct, a non-nil
pointer to string, or a non-nil pointer to struct — or whose JSON
marshalling fails — is silently ignored: `parseObj` reports not ok and `log`
returns without invoking any engine method or changing any state. -/
theorem c10_non_loggable_values_ignored (engines : List Nat) (sendS : Bool)
    (ts jsonLevel : String) (t : Logger.LogType) (obj : Logger.GoValue)
    (h : obj = .otherVal ∨ obj = .ptrString none ∨ obj = .ptrStruct none ∨
      obj = .structVal none ∨ obj = .ptrStruct (some none)) :
    Logger.parseObj obj = none ∧
    Logger.log engines sendS ts jsonLevel t obj = [] := by
  rcases h with h | h | h | h | h <;> subst h <;> exact ⟨rfl, rfl⟩

theorem c10_non_loggable_values_ignored_witness :
    Logger.parseObj .otherVal = none ∧
    Logger.log [0, 1] true "ts" "error" .error .otherVal = [] :=
  c10_non_loggable_values_ignored [0, 1] true "ts" "error" .error .otherVal
    (Or.inl rfl)
